import Mathlib

/-!
Shallow embedding of the face-recognition matching pipeline of
`src/ai_services/face_recognition_service.py`: image decode, bounded-retry
face detection, per-face embedding, nearest-identity matching with a 0.6
threshold, multi-face aggregation, and temporary-file lifecycle.

External capabilities (DeepFace detection/embedding, the filesystem, the
registry read) are modelled by their observable outcomes, passed in as
parameters; the control flow, comparisons and aggregation are translated
from the Python source.
-/

/-- A registered identity as returned by the registry query
(`get_all_embeddings`): a `studentId` and its stored embedding vector. -/
structure Student where
  studentId : String
  embedding : List ℝ

/-- Sum of squared componentwise differences of two vectors. -/
def sumSqDiff (q c : List ℝ) : ℝ :=
  (List.zipWith (fun a b => (a - b) ^ 2) q c).sum

/-- Euclidean (L2) distance `np.linalg.norm(np.array(q) - np.array(c))`. -/
noncomputable def euclidDist (q c : List ℝ) : ℝ :=
  Real.sqrt (sumSqDiff q c)

open Classical in
/-- The candidate-scan loop of `process_single_face` (lines 224-236):
`min_distance` starts at `float('inf')` (modelled by `none`),
`matched_student` at `None`; a candidate updates both exactly when its
distance is below the current minimum and below the 0.6 threshold. -/
noncomputable def matchAux (q : List ℝ) :
    List Student → Option ℝ → Option String → Option String
  | [], _, matched => matched
  | s :: rest, minD, matched =>
    if (∀ m, minD = some m → euclidDist q s.embedding < m) ∧
        euclidDist q s.embedding < 0.6 then
      matchAux q rest (some (euclidDist q s.embedding)) (some s.studentId)
    else
      matchAux q rest minD matched

/-- Outcome of the per-face work of `process_single_face` up to the point
where the query embedding is available: the crop write (`cv2.imwrite`) may
raise, the embedding call (`DeepFace.represent`) may raise or return
unusable data, or the face yields a query vector. -/
inductive FaceStep where
  | writeFail
  | embedFail
  | ok (q : List ℝ)

/-- Return value of `process_single_face`: the whole body is wrapped in
`try/except` returning `None` on any failure, otherwise the scan result. -/
noncomputable def process_single_face_result (f : FaceStep) (students : List Student) :
    Option String :=
  match f with
  | .writeFail => none
  | .embedFail => none
  | .ok q => matchAux q students none none

/-- `if result: recognized_students.append(result)` — Python truthiness on
an `Optional[str]`: `None` and the empty string are both skipped. -/
def pyAppendResult (r : Option String) (ids : List String) : List String :=
  match r with
  | some id => if id = "" then ids else id :: ids
  | none => ids

/-- The per-face accumulation loop of `recognize_faces` (lines 283-286),
keeping face order and appending every truthy per-face result. -/
noncomputable def recognize_loop (faces : List FaceStep) (students : List Student) :
    List String :=
  match faces with
  | [] => []
  | f :: rest => pyAppendResult (process_single_face_result f students) (recognize_loop rest students)

/-- Observable outcome of `extract_faces_with_retry` as seen by its
callers: either it raised on the final attempt, or it returned a (possibly
empty) list of detected faces. -/
inductive DetectOutcome (α : Type) where
  | fail
  | ok (faces : List α)

/-- The `finally` blocks: `os.remove` on the temp path, degraded to a
logged warning when the filesystem delete fails (`rmOk = false`). -/
def rmCleanup (rmOk : Bool) (p : String) (fs : List String) : List String :=
  if rmOk then fs.erase p else fs

/-- `process_single_face` with its filesystem effects: the crop file
`face_path` is created by `cv2.imwrite` (absent when the write itself
raises), and the `finally` block removes it when it exists. -/
noncomputable def process_single_face_run (fs : List String) (pc : String)
    (f : FaceStep) (students : List Student) (rmOk : Bool) :
    Option String × List String :=
  match f with
  | .writeFail => (none, fs)
  | _ => (process_single_face_result f students, rmCleanup rmOk pc (pc :: fs))

/-- The per-face loop of `recognize_faces` threading the filesystem: each
face gets its own uniquely named crop file, created and cleaned up inside
`process_single_face`. -/
noncomputable def recognize_loop_fs (students : List Student) (rmOk : Bool)
    (cropPath : Nat → String) :
    Nat → List FaceStep → List String → List String × List String
  | _, [], fs => ([], fs)
  | idx, f :: rest, fs =>
    let pr := process_single_face_run fs (cropPath idx) f students rmOk
    let r := recognize_loop_fs students rmOk cropPath (idx + 1) rest pr.2
    (pyAppendResult pr.1 r.1, r.2)

/-- Result of `recognize_faces`: the list of recognized ids, or an
HTTP 500 error (decode failure or a detector failure that propagated). -/
inductive RecognizeResult where
  | ok (ids : List String)
  | error

/-- `faces.filter` for the faces on which `DeepFace.represent` is actually
invoked (everything past a successful crop write). -/
def FaceStep.attemptsEmbed : FaceStep → Bool
  | .writeFail => false
  | _ => true

/-- Faces whose embedding succeeded, i.e. that reach the candidate scan. -/
def FaceStep.reachesScan : FaceStep → Bool
  | .ok _ => true
  | _ => false

/-- Number of `DeepFace.represent` calls made for a face list. -/
def embedAttempts (faces : List FaceStep) : Nat :=
  (faces.filter FaceStep.attemptsEmbed).length

/-- Number of faces whose embedding succeeds and that scan the registry. -/
def okFaceCount (faces : List FaceStep) : Nat :=
  (faces.filter FaceStep.reachesScan).length

/-- One `recognize_faces` invocation with its observable effects: the
returned result, how many times the detection wrapper was invoked, how many
embedding calls and distance computations ran, and the final filesystem. -/
structure RecognizeRun where
  result : RecognizeResult
  detectCalls : Nat
  embedCalls : Nat
  distComps : Nat
  fs : List String

/-- `recognize_faces` (lines 248-301): decode, fetch the registry snapshot,
return `[]` if it is empty (before any temp file or detection), write the
preprocessed temp image, detect with retry, return `[]` on zero faces,
otherwise run the per-face loop; each distance computation scans one
registry entry; the `finally` block removes the temp image on every path. -/
noncomputable def recognize_faces_run (fs0 : List String) (p : String)
    (cropPath : Nat → String) (decodeOk : Bool) (students : List Student)
    (det : DetectOutcome FaceStep) (rmOk : Bool) : RecognizeRun :=
  if decodeOk = false then ⟨.error, 0, 0, 0, fs0⟩
  else if students.isEmpty then ⟨.ok [], 0, 0, 0, fs0⟩
  else
    match det with
    | .fail => ⟨.error, 1, 0, 0, rmCleanup rmOk p (p :: fs0)⟩
    | .ok faces =>
      if faces.isEmpty then ⟨.ok [], 1, 0, 0, rmCleanup rmOk p (p :: fs0)⟩
      else
        let r := recognize_loop_fs students rmOk cropPath 0 faces (p :: fs0)
        ⟨.ok r.1, 1, embedAttempts faces, okFaceCount faces * students.length,
          rmCleanup rmOk p r.2⟩

/-- JSON body of the `/recognize` endpoint (`recognize_students`,
lines 320-342): `recognized_students` plus `count = len(recognized_students)`,
or the propagated HTTP error. -/
inductive EndpointResponse where
  | ok (recognized_students : List String) (count : Nat)
  | httpError

/-- The `/recognize` endpoint on top of `recognize_faces`. -/
noncomputable def recognize_students_endpoint (fs0 : List String) (p : String)
    (cropPath : Nat → String) (decodeOk : Bool) (students : List Student)
    (det : DetectOutcome FaceStep) (rmOk : Bool) : EndpointResponse :=
  match (recognize_faces_run fs0 p cropPath decodeOk students det rmOk).result with
  | .ok ids => .ok ids ids.length
  | .error => .httpError

/-! ### Enrollment path: `get_face_embedding` -/

/-- Outcome of the `DeepFace.represent` call in `get_face_embedding`: it
may raise, or return a list of items each of which may or may not carry an
`'embedding'` vector. -/
inductive EmbedOutcome where
  | raiseErr
  | ret (items : List (Option (List ℝ)))

/-- Result of `get_face_embedding` as surfaced to its caller. -/
inductive EnrollResult where
  | noFaceDetected
  | multipleFaces
  | embedding (v : List ℝ)
  | serverError

/-- `get_face_embedding` (lines 161-203): decode, detect with retry, then
the cardinality checks `if not faces` / `if len(faces) > 1`, then the
embedding call guarded by `if not embedding or not embedding[0].get('embedding')`
(Python truthiness: a missing key, `None`, or an empty vector all fail). -/
def get_face_embedding (decodeOk : Bool) (det : DetectOutcome Unit)
    (emb : EmbedOutcome) : EnrollResult :=
  if decodeOk = false then .serverError
  else
    match det with
    | .fail => .serverError
    | .ok faces =>
      if faces.isEmpty then .noFaceDetected
      else if 1 < faces.length then .multipleFaces
      else
        match emb with
        | .raiseErr => .serverError
        | .ret items =>
          match items.head? with
          | none => .serverError
          | some none => .serverError
          | some (some v) => if v.isEmpty then .serverError else .embedding v

/-- The vector `get_face_embedding` would return for an embedding-call
outcome, if any: `embedding[0]['embedding']` when present and non-empty. -/
def embedVector : EmbedOutcome → Option (List ℝ)
  | .raiseErr => none
  | .ret items =>
    match items.head? with
    | some (some v) => if v.isEmpty then none else some v
    | _ => none

/-- `get_face_embedding` with its filesystem effects: the preprocessed temp
image is written after a successful decode (`temp_img_path` stays `None` on
decode failure) and the `finally` block removes it on every exit path. -/
def get_face_embedding_run (fs0 : List String) (p : String) (decodeOk : Bool)
    (det : DetectOutcome Unit) (emb : EmbedOutcome) (rmOk : Bool) :
    EnrollResult × List String :=
  if decodeOk = false then (.serverError, fs0)
  else (get_face_embedding decodeOk det emb, rmCleanup rmOk p (p :: fs0))

/-! ### Detection retry wrapper: `extract_faces_with_retry` -/

/-- One invocation of the external detection capability: it raises, or
returns a (possibly empty) face list. -/
inductive CapOutcome (α : Type) where
  | raiseErr
  | ret (faces : List α)
deriving DecidableEq

/-- Observable trace of one `extract_faces_with_retry` call: the result
(`Except.error ()` models the exception propagating out of the final
attempt), the number of capability calls, and the number of backoff sleeps. -/
structure RetryRun (α : Type) where
  result : Except Unit (List α)
  calls : Nat
  sleeps : Nat

/-- The retry loop of `extract_faces_with_retry` (lines 125-147), indexed by
the number of remaining attempts (`attempt = max_retries - remaining`): a
non-empty face list returns immediately; zero faces or a raise before the
final attempt sleeps once and retries; zero faces on the final attempt falls
through to `return []`; a raise on the final attempt propagates. -/
def retryAux {α : Type} (cap : Nat → CapOutcome α) (max_retries : Nat) :
    Nat → RetryRun α
  | 0 => ⟨.ok [], 0, 0⟩
  | remaining + 1 =>
    match cap (max_retries - (remaining + 1)) with
    | .ret faces =>
      if faces.isEmpty then
        if remaining = 0 then ⟨.ok [], 1, 0⟩
        else
          let rest := retryAux cap max_retries remaining
          ⟨rest.result, rest.calls + 1, rest.sleeps + 1⟩
      else ⟨.ok faces, 1, 0⟩
    | .raiseErr =>
      if remaining = 0 then ⟨.error (), 1, 0⟩
      else
        let rest := retryAux cap max_retries remaining
        ⟨rest.result, rest.calls + 1, rest.sleeps + 1⟩

/-- `extract_faces_with_retry` with its default `max_retries = 3`. -/
def extract_faces_with_retry {α : Type} (cap : Nat → CapOutcome α)
    (max_retries : Nat := 3) : RetryRun α :=
  retryAux cap max_retries max_retries

/-- An attempt that does not produce faces: the capability raised or
returned an empty list (both trigger the retry branch). -/
def capFails {α : Type} (c : CapOutcome α) : Prop :=
  c = .raiseErr ∨ c = .ret []

/-- A concrete capability trace: zero faces on attempt 0, a raised failure
on attempt 1, one face (tagged `7`) on attempt 2. -/
def capW : Nat → CapOutcome Nat :=
  fun i => if i = 0 then .ret [] else if i = 1 then .raiseErr else .ret [7]

/-- Registry snapshot with the single identity `"S1"` stored at `[0]`. -/
def s1Reg : List Student := [Student.mk "S1" [0]]

/-- Three detected faces: two whose query embedding `[0]` matches `"S1"` at
distance `0`, one at `[5]` (distance `5`, above threshold, unmatched). -/
def scenarioFaces : List FaceStep := [.ok [0], .ok [0], .ok [5]]

/-! ### Helper lemmas: distances and the candidate scan -/

lemma sumSqDiff_single (a b : ℝ) : sumSqDiff [a] [b] = (a - b) ^ 2 := by
  simp [sumSqDiff]

lemma euclidDist_single (a b : ℝ) : euclidDist [a] [b] = |a - b| := by
  rw [euclidDist, sumSqDiff_single, Real.sqrt_sq_eq_abs]

lemma matchAux_nil (q : List ℝ) (b : Option ℝ) (a : Option String) :
    matchAux q [] b a = a := by
  simp [matchAux]

lemma matchAux_cons_pass (q : List ℝ) (s : Student) (rest : List Student)
    (b : Option ℝ) (a : Option String)
    (h1 : ∀ m, b = some m → euclidDist q s.embedding < m)
    (h2 : euclidDist q s.embedding < 0.6) :
    matchAux q (s :: rest) b a =
      matchAux q rest (some (euclidDist q s.embedding)) (some s.studentId) := by
  rw [matchAux, if_pos ⟨h1, h2⟩]

lemma matchAux_cons_fail (q : List ℝ) (s : Student) (rest : List Student)
    (b : Option ℝ) (a : Option String)
    (h : ¬((∀ m, b = some m → euclidDist q s.embedding < m) ∧
        euclidDist q s.embedding < 0.6)) :
    matchAux q (s :: rest) b a = matchAux q rest b a := by
  rw [matchAux, if_neg h]

/-- If every candidate's distance is at or above the threshold, the scan
never updates its accumulator. -/
lemma matchAux_of_forall_ge (q : List ℝ) (l : List Student) (b : Option ℝ)
    (a : Option String) (h : ∀ s ∈ l, (0.6 : ℝ) ≤ euclidDist q s.embedding) :
    matchAux q l b a = a := by
  induction l generalizing b a with
  | nil => exact matchAux_nil q b a
  | cons s rest ih =>
    rw [matchAux_cons_fail q s rest b a]
    · exact ih b a fun t ht => h t (List.mem_cons_of_mem s ht)
    · rintro ⟨-, hlt⟩
      exact absurd hlt (not_lt.mpr (h s (List.mem_cons_self s rest)))

/-- If every remaining candidate is at distance at least the current
minimum, the scan never updates its accumulator. -/
lemma matchAux_of_forall_le (q : List ℝ) (l : List Student) (D : ℝ)
    (a : Option String) (h : ∀ s ∈ l, D ≤ euclidDist q s.embedding) :
    matchAux q l (some D) a = a := by
  induction l generalizing a with
  | nil => exact matchAux_nil q (some D) a
  | cons s rest ih =>
    rw [matchAux_cons_fail q s rest (some D) a]
    · exact ih a fun t ht => h t (List.mem_cons_of_mem s ht)
    · rintro ⟨hmin, -⟩
      exact absurd (hmin D rfl) (not_lt.mpr (h s (List.mem_cons_self s rest)))

/-- Any identity produced by the scan either was the incoming accumulator or
belongs to a scanned candidate whose distance beat the 0.6 threshold. -/
lemma matchAux_some_mem (q : List ℝ) (l : List Student) (b : Option ℝ)
    (a : Option String) (id : String) (h : matchAux q l b a = some id) :
    a = some id ∨ ∃ s ∈ l, s.studentId = id ∧ euclidDist q s.embedding < 0.6 := by
  induction l generalizing b a with
  | nil => rw [matchAux_nil] at h; exact Or.inl h
  | cons s rest ih =>
    by_cases hc : (∀ m, b = some m → euclidDist q s.embedding < m) ∧
        euclidDist q s.embedding < 0.6
    · rw [matchAux_cons_pass q s rest b a hc.1 hc.2] at h
      rcases ih (some (euclidDist q s.embedding)) (some s.studentId) h with heq | ⟨t, ht, hid, hlt⟩
      · exact Or.inr ⟨s, List.mem_cons_self s rest, Option.some_injective _ heq, hc.2⟩
      · exact Or.inr ⟨t, List.mem_cons_of_mem s ht, hid, hlt⟩
    · rw [matchAux_cons_fail q s rest b a hc] at h
      rcases ih b a h with heq | ⟨t, ht, hid, hlt⟩
      · exact Or.inl heq
      · exact Or.inr ⟨t, List.mem_cons_of_mem s ht, hid, hlt⟩

/-- Selection lemma: if `s0` beats every earlier candidate strictly and every
later candidate weakly, and is below the threshold, the scan selects `s0`. -/
lemma matchAux_selects (q : List ℝ) (s0 : Student) (l2 : List Student)
    (h2 : ∀ s ∈ l2, euclidDist q s0.embedding ≤ euclidDist q s.embedding)
    (h3 : euclidDist q s0.embedding < 0.6) :
    ∀ (l1 : List Student) (b : Option ℝ) (a : Option String),
      (∀ s ∈ l1, euclidDist q s0.embedding < euclidDist q s.embedding) →
      (∀ m, b = some m → euclidDist q s0.embedding < m) →
      matchAux q (l1 ++ s0 :: l2) b a = some s0.studentId := by
  intro l1
  induction l1 with
  | nil =>
    intro b a _ hb
    rw [List.nil_append,
      matchAux_cons_pass q s0 l2 b a (fun m hm => hb m hm) h3,
      matchAux_of_forall_le q l2 (euclidDist q s0.embedding) _ h2]
  | cons s rest ih =>
    intro b a h1 hb
    rw [List.cons_append]
    by_cases hc : (∀ m, b = some m → euclidDist q s.embedding < m) ∧
        euclidDist q s.embedding < 0.6
    · rw [matchAux_cons_pass q s _ b a hc.1 hc.2]
      refine ih (some (euclidDist q s.embedding)) (some s.studentId)
        (fun t ht => h1 t (List.mem_cons_of_mem s ht)) ?_
      rintro m hm
      injection hm with hm
      exact hm ▸ h1 s (List.mem_cons_self s rest)
    · rw [matchAux_cons_fail q s _ b a hc]
      exact ih b a (fun t ht => h1 t (List.mem_cons_of_mem s ht)) hb

/-! ### Helper lemmas: the per-face loop and its filesystem effects -/

lemma process_single_face_run_fst (fs : List String) (pc : String) (f : FaceStep)
    (students : List Student) (rmOk : Bool) :
    (process_single_face_run fs pc f students rmOk).1 =
      process_single_face_result f students := by
  cases f <;> simp [process_single_face_run, process_single_face_result]

lemma process_single_face_run_clean (fs : List String) (pc : String) (f : FaceStep)
    (students : List Student) :
    (process_single_face_run fs pc f students true).2 = fs := by
  cases f <;> simp [process_single_face_run, rmCleanup]

lemma recognize_loop_fs_fst (students : List Student) (rmOk : Bool) (cp : Nat → String) :
    ∀ (faces : List FaceStep) (idx : Nat) (fs : List String),
      (recognize_loop_fs students rmOk cp idx faces fs).1 = recognize_loop faces students := by
  intro faces
  induction faces with
  | nil => intro idx fs; simp [recognize_loop_fs, recognize_loop]
  | cons f rest ih =>
    intro idx fs
    simp only [recognize_loop_fs, recognize_loop, process_single_face_run_fst, ih]

lemma recognize_loop_fs_clean (students : List Student) (cp : Nat → String) :
    ∀ (faces : List FaceStep) (idx : Nat) (fs : List String),
      (recognize_loop_fs students true cp idx faces fs).2 = fs := by
  intro faces
  induction faces with
  | nil => intro idx fs; simp [recognize_loop_fs]
  | cons f rest ih =>
    intro idx fs
    simp only [recognize_loop_fs, ih, process_single_face_run_clean]

lemma recognize_faces_run_emptyReg (fs0 : List String) (p : String) (cp : Nat → String)
    (det : DetectOutcome FaceStep) (rmOk : Bool) :
    recognize_faces_run fs0 p cp true [] det rmOk = ⟨.ok [], 0, 0, 0, fs0⟩ := by
  simp [recognize_faces_run]

lemma recognize_faces_run_main (fs0 : List String) (p : String) (cp : Nat → String)
    (students : List Student) (faces : List FaceStep) (rmOk : Bool)
    (hs : students.isEmpty = false) (hf : faces.isEmpty = false) :
    recognize_faces_run fs0 p cp true students (.ok faces) rmOk =
      ⟨.ok (recognize_loop faces students), 1, embedAttempts faces,
        okFaceCount faces * students.length,
        rmCleanup rmOk p (recognize_loop_fs students rmOk cp 0 faces (p :: fs0)).2⟩ := by
  simp only [recognize_faces_run, hs, hf, Bool.false_eq_true, if_false,
    recognize_loop_fs_fst]
  simp

/-! ### Concrete scenario: one identity, three faces, two matches -/

lemma eval_face_match : process_single_face_result (.ok [0]) s1Reg = some "S1" := by
  have h2 : euclidDist [0] (Student.mk "S1" [0]).embedding < 0.6 := by
    show euclidDist [0] [0] < 0.6
    rw [euclidDist_single]
    norm_num
  show matchAux [0] (Student.mk "S1" [0] :: []) none none = some "S1"
  rw [matchAux_cons_pass _ _ _ _ _ (fun m h => Option.noConfusion h) h2, matchAux_nil]

lemma eval_face_unmatched : process_single_face_result (.ok [5]) s1Reg = none := by
  show matchAux [5] (Student.mk "S1" [0] :: []) none none = none
  rw [matchAux_cons_fail, matchAux_nil]
  rintro ⟨-, hlt⟩
  rw [show (Student.mk "S1" [0]).embedding = [0] from rfl, euclidDist_single] at hlt
  norm_num at hlt

lemma eval_loop : recognize_loop scenarioFaces s1Reg = ["S1", "S1"] := by
  simp only [scenarioFaces, recognize_loop, eval_face_match, eval_face_unmatched,
    pyAppendResult]
  simp

lemma eval_run : (recognize_faces_run [] "tmp" (fun _ => "crop") true s1Reg
    (.ok scenarioFaces) true).result = .ok ["S1", "S1"] := by
  rw [recognize_faces_run_main [] "tmp" (fun _ => "crop") s1Reg scenarioFaces true
    (by simp [s1Reg]) (by simp [scenarioFaces])]
  simp [eval_loop]

/-! ### Helper lemmas: the detection retry wrapper -/

lemma retryAux_calls_le {α : Type} (cap : Nat → CapOutcome α) (m : Nat) :
    ∀ n, (retryAux cap m n).calls ≤ n := by
  intro n
  induction n with
  | zero => simp [retryAux]
  | succ k ih =>
    simp only [retryAux]
    cases cap (m - (k + 1)) with
    | raiseErr =>
      by_cases hk : k = 0 <;> simp only [hk, if_true, if_false, reduceIte] <;> simp <;> omega
    | ret faces =>
      by_cases he : faces.isEmpty <;> by_cases hk : k = 0 <;>
        simp only [he, hk, if_true, if_false, reduceIte] <;> simp <;> omega

/-- A run that succeeds with faces at attempt `k` after `k` failed attempts:
`k` backoff sleeps, `k + 1` capability calls, the faces returned. -/
lemma retryAux_success {α : Type} (cap : Nat → CapOutcome α) :
    ∀ (n : Nat) (m k : Nat), n ≤ m → k < n →
      (∀ i, i < k → capFails (cap (m - n + i))) →
      ∀ fs : List α, cap (m - n + k) = .ret fs → fs.isEmpty = false →
      retryAux cap m n = ⟨.ok fs, k + 1, k⟩ := by
  intro n
  induction n with
  | zero => intro m k _ hk; omega
  | succ j ih =>
    intro m k hnm hk hfail fs hret hne
    cases k with
    | zero =>
      simp only [Nat.add_zero] at hret
      simp only [retryAux, hret, hne, Bool.false_eq_true, if_false]
    | succ k0 =>
      have h0 : capFails (cap (m - (j + 1))) := by
        have := hfail 0 (by omega)
        simpa using this
      have hj : 0 < j := by omega
      have harith : ∀ i : Nat, m - (j + 1) + (i + 1) = m - j + i := by
        intro i; omega
      have hfail' : ∀ i, i < k0 → capFails (cap (m - j + i)) := by
        intro i hi
        have := hfail (i + 1) (by omega)
        rwa [harith i] at this
      have hret' : cap (m - j + k0) = .ret fs := by
        rw [← harith k0]; exact hret
      have hrec := ih m k0 (by omega) (by omega) hfail' fs hret' hne
      rcases h0 with h0 | h0
      · simp only [retryAux, h0, if_neg (by omega : ¬ j = 0), hrec]
      · simp only [retryAux, h0, List.isEmpty_nil, if_true,
          if_neg (by omega : ¬ j = 0), hrec]

/-- A run in which every attempt fails and the final attempt does not raise
(so it returned zero faces): all attempts consumed, one sleep between each
pair of consecutive attempts, and the empty list returned. -/
lemma retryAux_exhaust {α : Type} (cap : Nat → CapOutcome α) :
    ∀ (n : Nat) (m : Nat), 0 < n → n ≤ m →
      (∀ i, i < n → capFails (cap (m - n + i))) →
      cap (m - 1) = .ret [] →
      retryAux cap m n = ⟨.ok [], n, n - 1⟩ := by
  intro n
  induction n with
  | zero => intro m h; omega
  | succ j ih =>
    intro m _ hnm hfail hlast
    cases Nat.eq_zero_or_pos j with
    | inl hj =>
      subst hj
      simp [retryAux, hlast]
    | inr hj =>
      have h0 : capFails (cap (m - (j + 1))) := by
        have := hfail 0 (by omega)
        simpa using this
      have hfail' : ∀ i, i < j → capFails (cap (m - j + i)) := by
        intro i hi
        have := hfail (i + 1) (by omega)
        have harith : m - (j + 1) + (i + 1) = m - j + i := by omega
        rwa [harith] at this
      have hrec := ih m hj (by omega) hfail' hlast
      rcases h0 with h0 | h0
      · simp only [retryAux, h0, if_neg (by omega : ¬ j = 0), hrec,
          RetryRun.mk.injEq]
        exact ⟨trivial, trivial, by omega⟩
      · simp only [retryAux, h0, List.isEmpty_nil, if_true,
          if_neg (by omega : ¬ j = 0), hrec, RetryRun.mk.injEq]
        exact ⟨trivial, trivial, by omega⟩

/-- A run in which every attempt before the last fails and the final attempt
raises: the exception propagates after all attempts are consumed. -/
lemma retryAux_raise {α : Type} (cap : Nat → CapOutcome α) :
    ∀ (n : Nat) (m : Nat), 0 < n → n ≤ m →
      (∀ i, i < n - 1 → capFails (cap (m - n + i))) →
      cap (m - 1) = .raiseErr →
      retryAux cap m n = ⟨.error (), n, n - 1⟩ := by
  intro n
  induction n with
  | zero => intro m h; omega
  | succ j ih =>
    intro m _ hnm hfail hlast
    cases Nat.eq_zero_or_pos j with
    | inl hj =>
      subst hj
      simp [retryAux, hlast]
    | inr hj =>
      have h0 : capFails (cap (m - (j + 1))) := by
        have := hfail 0 (by omega)
        simpa using this
      have hfail' : ∀ i, i < j - 1 → capFails (cap (m - j + i)) := by
        intro i hi
        have := hfail (i + 1) (by omega)
        have harith : m - (j + 1) + (i + 1) = m - j + i := by omega
        rwa [harith] at this
      have hrec := ih m hj (by omega) hfail' hlast
      rcases h0 with h0 | h0
      · simp only [retryAux, h0, if_neg (by omega : ¬ j = 0), hrec,
          RetryRun.mk.injEq]
        exact ⟨trivial, trivial, by omega⟩
      · simp only [retryAux, h0, List.isEmpty_nil, if_true,
          if_neg (by omega : ¬ j = 0), hrec, RetryRun.mk.injEq]
        exact ⟨trivial, trivial, by omega⟩

/-! ### Helper lemmas: aggregation and membership -/

lemma recognize_loop_skip (students : List Student) (f : FaceStep)
    (hf : process_single_face_result f students = none) :
    ∀ l1 l2 : List FaceStep,
      recognize_loop (l1 ++ f :: l2) students = recognize_loop (l1 ++ l2) students := by
  intro l1 l2
  induction l1 with
  | nil => simp only [List.nil_append, recognize_loop, hf, pyAppendResult]
  | cons g rest ih =>
    simp only [List.cons_append, recognize_loop, List.append_eq, ih]

lemma mem_recognize_loop (students : List Student) (id : String) :
    ∀ faces : List FaceStep,
      id ∈ recognize_loop faces students → ∃ s ∈ students, s.studentId = id := by
  intro faces
  induction faces with
  | nil => intro h; simp [recognize_loop] at h
  | cons f rest ih =>
    intro h
    rw [recognize_loop] at h
    rcases hr : process_single_face_result f students with _ | x
    · rw [hr] at h
      exact ih h
    · rw [hr] at h
      simp only [pyAppendResult] at h
      by_cases hx : x = ""
      · rw [if_pos hx] at h
        exact ih h
      · rw [if_neg hx] at h
        rcases List.mem_cons.mp h with heq | hmem
        · subst heq
          cases f with
          | writeFail => exact absurd hr (by simp [process_single_face_result])
          | embedFail => exact absurd hr (by simp [process_single_face_result])
          | ok q =>
            have := matchAux_some_mem q students none none id hr
            rcases this with hc | ⟨s, hs, hid, -⟩
            · exact absurd hc (by simp)
            · exact ⟨s, hs, hid⟩
        · exact ih hmem

lemma recognize_loop_nonnil_isEmpty (l1 l2 : List FaceStep) (f : FaceStep) :
    (l1 ++ f :: l2).isEmpty = false := by
  cases l1 <;> simp

/-! ### Helper lemmas: enrollment evaluation -/

lemma get_face_embedding_eval (faces : List Unit) (emb : EmbedOutcome) :
    get_face_embedding true (.ok faces) emb =
      if faces.isEmpty then .noFaceDetected
      else if 1 < faces.length then .multipleFaces
      else
        match embedVector emb with
        | none => .serverError
        | some v => .embedding v := by
  rcases emb with _ | items
  · simp [get_face_embedding, embedVector]
  · rcases items with _ | ⟨h, t⟩
    · simp [get_face_embedding, embedVector]
    · rcases h with _ | v
      · simp [get_face_embedding, embedVector]
      · by_cases hv : v.isEmpty <;>
          simp [get_face_embedding, embedVector, hv]

/-! ### Helper lemmas: result inversion and concrete evaluations -/

lemma abs_val_eval (x y v : ℝ) (h : x - y = v ∨ x - y = -v) (hv : 0 ≤ v) :
    |x - y| = v := by
  rcases h with h | h
  · rw [h]; exact abs_of_nonneg hv
  · rw [h, abs_neg]; exact abs_of_nonneg hv

lemma recognize_result_inversion (fs0 : List String) (p : String) (cp : Nat → String)
    (decodeOk : Bool) (students : List Student) (det : DetectOutcome FaceStep)
    (rmOk : Bool) (ids : List String)
    (h : (recognize_faces_run fs0 p cp decodeOk students det rmOk).result = .ok ids) :
    ids = [] ∨ ∃ faces, det = .ok faces ∧ ids = recognize_loop faces students := by
  cases decodeOk with
  | false => simp [recognize_faces_run] at h
  | true =>
    by_cases hs : students.isEmpty
    · left
      simp [recognize_faces_run, hs] at h
      exact h
    · cases det with
      | fail => simp [recognize_faces_run, hs] at h
      | ok faces =>
        by_cases hf : faces.isEmpty
        · left
          simp [recognize_faces_run, hs, hf] at h
          exact h
        · right
          refine ⟨faces, rfl, ?_⟩
          simp [recognize_faces_run, hs, hf, recognize_loop_fs_fst] at h
          exact h.symm

/-! ### Claims -/

/-- Claim C3 counterexample: with an empty registry snapshot and a face
available, the detection wrapper is never invoked (`detectCalls = 0`) —
the short-circuit happens before detection, not after detection as the
claim states (detection running would give `detectCalls = 1`). -/
theorem C3_counterexample :
    (recognize_faces_run [] "tmp" (fun _ => "crop") true []
      (.ok [.ok [0]]) true).detectCalls = 0 ∧ (0 : Nat) ≠ 1 := by
  constructor
  · simp [recognize_faces_run]
  · decide

/-- Claim C3 (amended): when the identity registry snapshot is empty, batch
recognition short-circuits before detection and returns an empty result
having performed no detection, no embedding calls and no distance
computations; and an empty candidate snapshot yields "unmatched" for every
face without invoking the distance computation. -/
theorem C3_empty_registry_short_circuit (fs0 : List String) (p : String)
    (cp : Nat → String) (det : DetectOutcome FaceStep) (rmOk : Bool) :
    recognize_faces_run fs0 p cp true [] det rmOk = ⟨.ok [], 0, 0, 0, fs0⟩
    ∧ ∀ f, process_single_face_result f [] = none := by
  refine ⟨by simp [recognize_faces_run], ?_⟩
  intro f
  cases f with
  | writeFail => rfl
  | embedFail => rfl
  | ok q => exact matchAux_nil q none none

/-- Claim C4: if every candidate of the snapshot is at Euclidean distance
at least 0.6 from the query, the matcher returns "unmatched" (`none`, a
normal value, not an error); and any accepted identity comes from a
candidate whose distance is strictly below 0.6 — acceptance is exclusive at
exactly the 0.6 threshold. -/
theorem C4_threshold_exclusive (q : List ℝ) (students : List Student) :
    ((∀ s ∈ students, (0.6 : ℝ) ≤ euclidDist q s.embedding) →
      process_single_face_result (.ok q) students = none)
    ∧ (∀ id, process_single_face_result (.ok q) students = some id →
      ∃ s ∈ students, s.studentId = id ∧ euclidDist q s.embedding < 0.6) := by
  constructor
  · intro h
    exact matchAux_of_forall_ge q students none none h
  · intro id hid
    rcases matchAux_some_mem q students none none id hid with hc | hc
    · exact absurd hc (by simp)
    · exact hc

/-- Witness for C4 at a candidate whose distance is exactly 0.6: the face
is unmatched. -/
theorem C4_witness :
    process_single_face_result (.ok [0]) [Student.mk "A" [0.6]] = none := by
  refine (C4_threshold_exclusive [0] [Student.mk "A" [0.6]]).1 ?_
  intro s hs
  rw [List.mem_singleton] at hs
  subst hs
  show (0.6 : ℝ) ≤ euclidDist [0] [0.6]
  rw [euclidDist_single]
  rw [abs_val_eval 0 0.6 0.6 (Or.inr (by norm_num)) (by norm_num)]

/-- Claim C5: the matcher scans the whole snapshot under Euclidean distance
and selects the identity of the minimum-distance candidate; on an exact tie
the candidate encountered first in snapshot order wins, deterministically.
Here `s0` is the first candidate attaining the minimum: every earlier
candidate is strictly farther and every later one at least as far. -/
theorem C5_min_selection_first_tiebreak (q : List ℝ) (l1 l2 : List Student)
    (s0 : Student)
    (h1 : ∀ s ∈ l1, euclidDist q s0.embedding < euclidDist q s.embedding)
    (h2 : ∀ s ∈ l2, euclidDist q s0.embedding ≤ euclidDist q s.embedding)
    (h3 : euclidDist q s0.embedding < 0.6) :
    process_single_face_result (.ok q) (l1 ++ s0 :: l2) = some s0.studentId := by
  exact matchAux_selects q s0 l2 h2 h3 l1 none none h1 (fun m h => Option.noConfusion h)

/-- Witness for C5: an exact distance tie at 0.5 between "A" (first in
snapshot order) and "B" (second) resolves to "A". -/
theorem C5_witness :
    process_single_face_result (.ok [0])
      [Student.mk "A" [(1 : ℝ)/2], Student.mk "B" [-(1 : ℝ)/2]] = some "A" := by
  have hA : euclidDist [0] (Student.mk "A" [(1 : ℝ)/2]).embedding = 1/2 := by
    show euclidDist [0] [(1 : ℝ)/2] = 1/2
    rw [euclidDist_single]
    exact abs_val_eval 0 (1/2) (1/2) (Or.inr (by norm_num)) (by norm_num)
  have hB : euclidDist [0] (Student.mk "B" [-(1 : ℝ)/2]).embedding = 1/2 := by
    show euclidDist [0] [-(1 : ℝ)/2] = 1/2
    rw [euclidDist_single]
    exact abs_val_eval 0 (-1 / 2) (1 / 2) (Or.inl (by norm_num)) (by norm_num)
  exact C5_min_selection_first_tiebreak [0] [] [Student.mk "B" [-(1 : ℝ)/2]]
    (Student.mk "A" [(1 : ℝ)/2])
    (by intro s hs; simp at hs)
    (by intro s hs
        rw [List.mem_singleton] at hs
        subst hs
        rw [hA, hB])
    (by rw [hA]; norm_num)

/-- Claim C10: every identity id contained in the result of batch
recognition is the `studentId` of some entry of the registry snapshot used
by the call; no id outside the snapshot is ever returned. -/
theorem C10_ids_from_snapshot (fs0 : List String) (p : String) (cp : Nat → String)
    (decodeOk : Bool) (students : List Student) (det : DetectOutcome FaceStep)
    (rmOk : Bool) (ids : List String) (id : String)
    (hrun : (recognize_faces_run fs0 p cp decodeOk students det rmOk).result = .ok ids)
    (hmem : id ∈ ids) :
    ∃ s ∈ students, s.studentId = id := by
  rcases recognize_result_inversion fs0 p cp decodeOk students det rmOk ids hrun with
    hnil | ⟨faces, -, hloop⟩
  · subst hnil
    exact absurd hmem (by simp)
  · subst hloop
    exact mem_recognize_loop students id faces hmem

/-- Witness for C10 at the concrete three-face scenario. -/
theorem C10_witness : ∃ s ∈ s1Reg, s.studentId = "S1" :=
  C10_ids_from_snapshot [] "tmp" (fun _ => "crop") true s1Reg
    (.ok scenarioFaces) true ["S1", "S1"] "S1" eval_run (by decide)

/-- Claim C1 counterexample: in the three-face scenario (two faces
independently match "S1", one unmatched) the aggregated result of
`recognize_faces` contains "S1" twice — duplicates are NOT collapsed, so the
result is not the claimed one-element collection. -/
theorem C1_counterexample :
    (recognize_faces_run [] "tmp" (fun _ => "crop") true s1Reg
      (.ok scenarioFaces) true).result = .ok ["S1", "S1"]
    ∧ List.count "S1" ["S1", "S1"] = 2
    ∧ (["S1", "S1"] : List String) ≠ ["S1"] := by
  refine ⟨eval_run, by decide, by decide⟩

open Classical in
/-- Claim C1 (amended): the final result of batch recognition is the LIST of
matched identity ids in face order with duplicates retained — an identity
(with a non-empty id) matched by k faces contributes k entries, and in the
concrete three-face scenario the result is `["S1", "S1"]`, not `{"S1"}`. -/
theorem C1_amended_duplicates_retained :
    (∀ (faces : List FaceStep) (students : List Student) (id : String), id ≠ "" →
      (recognize_loop faces students).count id =
        faces.countP (fun f => decide (process_single_face_result f students = some id)))
    ∧ (recognize_faces_run [] "tmp" (fun _ => "crop") true s1Reg
        (.ok scenarioFaces) true).result = .ok ["S1", "S1"] := by
  constructor
  · intro faces students id hid
    induction faces with
    | nil => simp [recognize_loop]
    | cons f rest ih =>
      rw [recognize_loop, List.countP_cons]
      rcases hr : process_single_face_result f students with _ | x
      · simp [pyAppendResult, ih, hr]
      · by_cases hx : x = ""
        · subst hx
          simp [pyAppendResult, ih, hr, Ne.symm hid]
        · by_cases hxi : x = id
          · subst hxi
            simp [pyAppendResult, hx, hr, List.count_cons, ih]
          · simp [pyAppendResult, hx, hxi, hr, List.count_cons, ih]
  · exact eval_run

open Classical in
/-- Witness for the amended C1 at the concrete scenario. -/
theorem C1_witness :
    (recognize_loop scenarioFaces s1Reg).count "S1" =
      scenarioFaces.countP
        (fun f => decide (process_single_face_result f s1Reg = some "S1")) :=
  C1_amended_duplicates_retained.1 scenarioFaces s1Reg "S1" (by decide)

/-- Claim C2 counterexample: in the three-face scenario (two matches, one
unmatched face, so three faces processed) the endpoint's count field is 2 —
the number of matched entries — not 3, the number of faces processed. -/
theorem C2_counterexample :
    recognize_students_endpoint [] "tmp" (fun _ => "crop") true s1Reg
      (.ok scenarioFaces) true = .ok ["S1", "S1"] 2 ∧ (2 : Nat) ≠ 3 := by
  constructor
  · unfold recognize_students_endpoint
    rw [eval_run]
    rfl
  · decide

/-- Claim C2 (amended): the recognition response carries
`count = len(recognized_students)` — the number of matched (truthy) entries,
not a `facesProcessed` count; with zero detectable faces it returns the
empty list with count 0 and no error; in the three-face two-match scenario
the count is 2. -/
theorem C2_count_is_matched_entries :
    (∀ (fs0 : List String) (p : String) (cp : Nat → String)
        (students : List Student) (rmOk : Bool),
      recognize_students_endpoint fs0 p cp true students (.ok []) rmOk = .ok [] 0)
    ∧ (∀ (fs0 : List String) (p : String) (cp : Nat → String) (decodeOk : Bool)
        (students : List Student) (det : DetectOutcome FaceStep) (rmOk : Bool)
        (ids : List String) (n : Nat),
      recognize_students_endpoint fs0 p cp decodeOk students det rmOk = .ok ids n →
      n = ids.length)
    ∧ recognize_students_endpoint [] "tmp" (fun _ => "crop") true s1Reg
        (.ok scenarioFaces) true = .ok ["S1", "S1"] 2 := by
  refine ⟨?_, ?_, ?_⟩
  · intro fs0 p cp students rmOk
    by_cases hs : students.isEmpty
    · simp [recognize_students_endpoint, recognize_faces_run, hs]
    · simp [recognize_students_endpoint, recognize_faces_run, hs]
  · intro fs0 p cp decodeOk students det rmOk ids n h
    unfold recognize_students_endpoint at h
    rcases hr : (recognize_faces_run fs0 p cp decodeOk students det rmOk).result with
      ids0 | _
    · rw [hr] at h
      injection h with h1 h2
      rw [← h1, ← h2]
    · rw [hr] at h
      exact absurd h (by simp)
  · unfold recognize_students_endpoint
    rw [eval_run]
    rfl

/-- Witness for the amended C2: the hypothesis of the count characterization
discharged at the concrete scenario. -/
theorem C2_witness : (2 : Nat) = (["S1", "S1"] : List String).length :=
  C2_count_is_matched_entries.2.1 [] "tmp" (fun _ => "crop") true s1Reg
    (.ok scenarioFaces) true ["S1", "S1"] 2 (by
      unfold recognize_students_endpoint
      rw [eval_run]
      rfl)

/-- Claim C6: the retry wrapper calls the detection capability at most 3
times; a zero-face or raised failure before the final attempt is followed by
one backoff sleep and a retry (k initial failures give k sleeps); exhausting
all retries with zero faces returns the empty list as a valid result; and a
raise on the final attempt propagates to the caller. -/
theorem C6_retry_bounded_backoff (α : Type) (cap : Nat → CapOutcome α) :
    (extract_faces_with_retry cap).calls ≤ 3
    ∧ (∀ k, k < 3 → (∀ i, i < k → capFails (cap i)) →
        ∀ fs : List α, cap k = .ret fs → fs.isEmpty = false →
        extract_faces_with_retry cap = ⟨.ok fs, k + 1, k⟩)
    ∧ ((∀ i, i < 3 → capFails (cap i)) → cap 2 = .ret [] →
        extract_faces_with_retry cap = ⟨.ok [], 3, 2⟩)
    ∧ ((∀ i, i < 2 → capFails (cap i)) → cap 2 = .raiseErr →
        extract_faces_with_retry cap = ⟨.error (), 3, 2⟩) := by
  refine ⟨retryAux_calls_le cap 3 3, ?_, ?_, ?_⟩
  · intro k hk hfail fs hret hne
    have hfail' : ∀ i, i < k → capFails (cap (3 - 3 + i)) := by
      intro i hi; simpa using hfail i hi
    have hret' : cap (3 - 3 + k) = .ret fs := by simpa using hret
    exact retryAux_success cap 3 3 k le_rfl hk hfail' fs hret' hne
  · intro hfail hlast
    have hfail' : ∀ i, i < 3 → capFails (cap (3 - 3 + i)) := by
      intro i hi; simpa using hfail i hi
    have hlast' : cap (3 - 1) = CapOutcome.ret [] := by simpa using hlast
    exact retryAux_exhaust cap 3 3 (by norm_num) le_rfl hfail' hlast'
  · intro hfail hlast
    have hfail' : ∀ i, i < 3 - 1 → capFails (cap (3 - 3 + i)) := by
      intro i hi
      have : i < 2 := by omega
      simpa using hfail i this
    have hlast' : cap (3 - 1) = CapOutcome.raiseErr := by simpa using hlast
    exact retryAux_raise cap 3 3 (by norm_num) le_rfl hfail' hlast'

/-- Witness for C6: concrete trace — zero faces on attempt 0 (sleep, retry),
a raise on attempt 1 (sleep, retry), one face on attempt 2: three calls, two
sleeps, faces returned. -/
theorem C6_witness : extract_faces_with_retry capW = ⟨.ok [7], 3, 2⟩ :=
  (C6_retry_bounded_backoff Nat capW).2.1 2 (by norm_num)
    (by intro i hi
        interval_cases i
        · exact Or.inr rfl
        · exact Or.inl rfl)
    [7] rfl rfl

/-- Claim C7 counterexample: with exactly one detected face but an embedding
item carrying no vector, enrollment fails with a server error instead of
returning a raw embedding — so "returns the raw embedding exactly when
exactly one face is detected" does not hold as stated. -/
theorem C7_counterexample :
    get_face_embedding true (.ok [()]) (.ret [none]) = .serverError
    ∧ ([()] : List Unit).length = 1
    ∧ ∀ v, (EnrollResult.serverError = .embedding v) → False := by
  refine ⟨rfl, rfl, fun v h => EnrollResult.noConfusion h⟩

/-- Claim C7 (amended): enrollment fails with `NoFaceDetected` exactly when
zero faces are detected, fails with `MultipleFacesDetected` exactly when
more than one face is detected (it never silently picks one), and returns a
raw embedding exactly when exactly one face is detected AND the embedding
call yields a usable non-empty vector. -/
theorem C7_enrollment_cardinality (faces : List Unit) (emb : EmbedOutcome) :
    (get_face_embedding true (.ok faces) emb = .noFaceDetected ↔ faces = [])
    ∧ (get_face_embedding true (.ok faces) emb = .multipleFaces ↔ 1 < faces.length)
    ∧ (∀ v, get_face_embedding true (.ok faces) emb = .embedding v ↔
        (faces.length = 1 ∧ embedVector emb = some v)) := by
  rcases faces with _ | ⟨a, rest⟩
  · rw [get_face_embedding_eval]
    simp
  · rcases rest with _ | ⟨b, t⟩
    · rw [get_face_embedding_eval]
      rcases hv : embedVector emb with _ | v0
      · simp [hv]
      · simp only [List.isEmpty_cons, Bool.false_eq_true, if_false,
          List.length_singleton, lt_irrefl, hv]
        refine ⟨by simp, by simp, ?_⟩
        intro v
        constructor
        · intro h
          injection h with h
          exact ⟨by simp, by rw [h]⟩
        · rintro ⟨-, h⟩
          injection h with h
          rw [h]
    · rw [get_face_embedding_eval]
      simp

/-- Witness for the amended C7: one face and a good embedding vector yield
that raw embedding. -/
theorem C7_witness :
    get_face_embedding true (.ok [()]) (.ret [some [1]]) = .embedding [1] :=
  ((C7_enrollment_cardinality [()] (.ret [some [1]])).2.2 [1]).mpr ⟨rfl, rfl⟩

/-- Claim C8: a per-face embedding or matching failure is recorded as
"unmatched" (`None`) for that face only; removing such a face from the list
leaves the processing of all remaining faces unchanged, and the recognition
call still returns a result (never an error caused by one bad face). -/
theorem C8_per_face_isolation (students : List Student) (l1 l2 : List FaceStep)
    (fs0 : List String) (p : String) (cp : Nat → String) (rmOk : Bool) :
    process_single_face_result .embedFail students = none
    ∧ process_single_face_result .writeFail students = none
    ∧ recognize_loop (l1 ++ .embedFail :: l2) students =
        recognize_loop (l1 ++ l2) students
    ∧ recognize_loop (l1 ++ .writeFail :: l2) students =
        recognize_loop (l1 ++ l2) students
    ∧ ∃ ids, (recognize_faces_run fs0 p cp true students
        (.ok (l1 ++ .embedFail :: l2)) rmOk).result = .ok ids := by
  refine ⟨rfl, rfl, recognize_loop_skip students .embedFail rfl l1 l2,
    recognize_loop_skip students .writeFail rfl l1 l2, ?_⟩
  by_cases hs : students.isEmpty
  · exact ⟨[], by simp [recognize_faces_run, hs]⟩
  · refine ⟨recognize_loop (l1 ++ .embedFail :: l2) students, ?_⟩
    simp [recognize_faces_run, hs, recognize_loop_nonnil_isEmpty,
      recognize_loop_fs_fst]

/-- Claim C9: every temporary artifact (the preprocessed-image file of both
entry points and each per-face crop file) is removed on every exit path when
the filesystem delete succeeds; and a failed delete is only logged — it
never changes the invocation's primary result. -/
theorem C9_temp_cleanup :
    (∀ (fs0 : List String) (p : String) (decodeOk : Bool)
        (det : DetectOutcome Unit) (emb : EmbedOutcome),
      (get_face_embedding_run fs0 p decodeOk det emb true).2 = fs0)
    ∧ (∀ (fs0 : List String) (p : String) (decodeOk : Bool)
        (det : DetectOutcome Unit) (emb : EmbedOutcome) (rmOk : Bool),
      (get_face_embedding_run fs0 p decodeOk det emb rmOk).1 =
        get_face_embedding decodeOk det emb)
    ∧ (∀ (fs : List String) (pc : String) (f : FaceStep) (students : List Student),
      (process_single_face_run fs pc f students true).2 = fs)
    ∧ (∀ (fs : List String) (pc : String) (f : FaceStep) (students : List Student)
        (rmOk : Bool),
      (process_single_face_run fs pc f students rmOk).1 =
        process_single_face_result f students)
    ∧ (∀ (fs0 : List String) (p : String) (cp : Nat → String) (decodeOk : Bool)
        (students : List Student) (det : DetectOutcome FaceStep),
      (recognize_faces_run fs0 p cp decodeOk students det true).fs = fs0)
    ∧ (∀ (fs0 : List String) (p : String) (cp : Nat → String) (decodeOk : Bool)
        (students : List Student) (det : DetectOutcome FaceStep) (rmOk : Bool),
      (recognize_faces_run fs0 p cp decodeOk students det rmOk).result =
        (recognize_faces_run fs0 p cp decodeOk students det true).result) := by
  refine ⟨?_, ?_, process_single_face_run_clean, process_single_face_run_fst, ?_, ?_⟩
  · intro fs0 p decodeOk det emb
    cases decodeOk <;> simp [get_face_embedding_run, rmCleanup]
  · intro fs0 p decodeOk det emb rmOk
    cases decodeOk <;> simp [get_face_embedding_run, get_face_embedding]
  · intro fs0 p cp decodeOk students det
    cases decodeOk with
    | false => simp [recognize_faces_run]
    | true =>
      by_cases hs : students.isEmpty
      · simp [recognize_faces_run, hs]
      · cases det with
        | fail => simp [recognize_faces_run, hs, rmCleanup]
        | ok faces =>
          by_cases hf : faces.isEmpty <;>
            simp [recognize_faces_run, hs, hf, rmCleanup, recognize_loop_fs_clean]
  · intro fs0 p cp decodeOk students det rmOk
    cases decodeOk with
    | false => simp [recognize_faces_run]
    | true =>
      by_cases hs : students.isEmpty
      · simp [recognize_faces_run, hs]
      · cases det with
        | fail => simp [recognize_faces_run, hs]
        | ok faces =>
          by_cases hf : faces.isEmpty <;>
            simp [recognize_faces_run, hs, hf, recognize_loop_fs_fst]
